import Mathlib

/-!
Verification of the NeuroVision real-time frame acquisition and
segmentation/analysis pipeline.

The definitions below are a shallow embedding of the Python sources:

* `dashboard/backend/camera_service.py` — the bounded frame queue with
  drop-oldest overflow handling (`CameraService._capture_loop`).
* `src/vision/camera_vision_system.py` — `NeuroimagingSegmenter`
  (threshold tables, ROI masking, morphology, contour filtering) and
  `ClaudeVisionAnalyzer.analyze_frame` (error conversion to payloads).
* `dashboard/backend/analysis_service.py` — `AnalysisService.analyze_frame`
  (local pass, throttled external pass, cache fallback, score computation),
  `_calculate_safety_score`, the payload-extraction helpers, and
  `validate_trajectory`.

Conventions: Python floats are modelled as rationals (`ℚ`), uint8 pixel
values as `Nat`, images as a width/height pair with a total pixel
function, JSON payloads as a small inductive type, and exceptions as
`Except`.  Calls into OpenCV whose result depends on non-trivial external
algorithms (contour tracing, polygon moments, filled contour drawing)
are modelled as a record of functions (`ContourOps`) passed explicitly,
mirroring the code's dependency on the `cv2` module; deterministic
pointwise operations (thresholds, blur, morphology) are modelled
directly from their documented semantics.
-/

namespace NeuroVision

/-! ## Frame queue (`dashboard/backend/camera_service.py`)

`CameraService` keeps `frame_queue : Queue(maxsize=30)` plus the
`frame_count` and `dropped_frames` counters.  `_capture_loop`
(lines 185-214) increments `frame_count`, takes that value as the frame
id, and performs drop-oldest queue management before inserting. -/

/-- State of `CameraService` relevant to the queue: the queue contents
(frame ids, oldest first), its capacity, and the two counters. -/
structure CaptureState where
  maxsize : Nat
  items : List Nat
  frameCount : Nat
  droppedFrames : Nat
  deriving Repr, DecidableEq

/-- `Queue.full()`: true when `maxsize` is positive and the queue holds at
least `maxsize` items (a `maxsize` of `0` means an unbounded queue). -/
def CaptureState.isFull (s : CaptureState) : Bool :=
  0 < s.maxsize && s.maxsize ≤ s.items.length

/-- Queue management of `_capture_loop` lines 206-214: if the queue is
full, `get_nowait()` removes the oldest entry and `dropped_frames` is
incremented (`except Empty: pass` leaves the state unchanged when the
queue is empty); then the new frame is inserted. -/
def pushFrame (s : CaptureState) (fid : Nat) : CaptureState :=
  let s1 :=
    if s.isFull then
      match s.items with
      | [] => s
      | _ :: rest =>
        { s with items := rest, droppedFrames := s.droppedFrames + 1 }
    else s
  { s1 with items := s1.items ++ [fid] }

/-- One full iteration of `_capture_loop` after a successful read:
increment `frame_count`, use it as the frame id, push. -/
def captureStep (s : CaptureState) : CaptureState :=
  let s := { s with frameCount := s.frameCount + 1 }
  pushFrame s s.frameCount

/-- Push a list of explicit frame ids in order. -/
def pushAll (s : CaptureState) (fids : List Nat) : CaptureState :=
  fids.foldl pushFrame s

/-- A fresh `CameraService` queue state (`__init__` lines 100-105). -/
def initialCapture (maxsize : Nat) : CaptureState :=
  ⟨maxsize, [], 0, 0⟩

theorem pushFrame_maxsize (s : CaptureState) (fid : Nat) :
    (pushFrame s fid).maxsize = s.maxsize := by
  unfold pushFrame
  split
  · split <;> simp
  · simp

theorem pushFrame_length_le (s : CaptureState) (fid : Nat)
    (hcap : 0 < s.maxsize) (hlen : s.items.length ≤ s.maxsize) :
    (pushFrame s fid).items.length ≤ s.maxsize := by
  unfold pushFrame
  by_cases hf : s.isFull
  · simp only [hf, if_true]
    match h : s.items with
    | [] =>
      have : s.maxsize ≤ 0 := by
        have := hf
        unfold CaptureState.isFull at this
        simp [h] at this
        omega
      omega
    | a :: rest =>
      simp [h] at hlen ⊢
      omega
  · simp only [hf, if_false]
    have : ¬(0 < s.maxsize ∧ s.maxsize ≤ s.items.length) := by
      intro ⟨h1, h2⟩
      exact hf (by unfold CaptureState.isFull; simp [h1, h2])
    simp
    omega

theorem pushAll_length_le (s : CaptureState) (fids : List Nat)
    (hcap : 0 < s.maxsize) (hlen : s.items.length ≤ s.maxsize) :
    (pushAll s fids).items.length ≤ (pushAll s fids).maxsize := by
  induction fids generalizing s with
  | nil => simpa [pushAll]
  | cons f fs ih =>
    have hmax := pushFrame_maxsize s f
    have := pushFrame_length_le s f hcap hlen
    simpa [pushAll] using ih (pushFrame s f) (by omega) (by omega)

theorem pushAll_maxsize (s : CaptureState) (fids : List Nat) :
    (pushAll s fids).maxsize = s.maxsize := by
  induction fids generalizing s with
  | nil => rfl
  | cons f fs ih => simpa [pushAll, pushFrame_maxsize] using ih (pushFrame s f)

/-- Claim C5: a capacity-N frame buffer never holds more than N frames;
each push into a full buffer evicts exactly the single oldest entry and
increments the dropped-frame counter by one before inserting; and
pushing frames with ids 1..35 into a capacity-30 buffer (35 iterations
of the capture loop) leaves exactly the 30 frames with ids 6-35 in FIFO
order with a dropped counter of 5. -/
theorem claim_C5_frame_buffer :
    (∀ (N : Nat) (s : CaptureState) (fids : List Nat),
        s.maxsize = N → 0 < N → s.items.length ≤ N →
        (pushAll s fids).items.length ≤ N)
    ∧ (∀ (s : CaptureState) (fid : Nat),
        0 < s.maxsize → s.maxsize ≤ s.items.length →
        pushFrame s fid =
          { s with items := s.items.tail ++ [fid],
                   droppedFrames := s.droppedFrames + 1 })
    ∧ captureStep^[35] (initialCapture 30) =
        ⟨30, List.range' 6 30, 35, 5⟩ := by
  refine ⟨?_, ?_, ?_⟩
  · intro N s fids hN hpos hlen
    have h := pushAll_length_le s fids (hN ▸ hpos) (hN ▸ hlen)
    rwa [pushAll_maxsize, hN] at h
  · intro s fid hpos hfull
    have hf : s.isFull = true := by
      unfold CaptureState.isFull
      simp [hpos, hfull]
    unfold pushFrame
    rw [hf]
    simp only [if_true]
    match h : s.items with
    | [] => simp [h] at hfull; omega
    | a :: rest => simp [h]
  · set_option maxRecDepth 4000 in decide

/-- Witness for C5: the capacity bound applied to a concrete run. -/
theorem claim_C5_frame_buffer_witness :
    (0 < 30 ∧ (pushAll (initialCapture 30) [1, 2, 3]).items.length ≤ 30)
    ∧ pushFrame ⟨2, [7, 8], 0, 0⟩ 9 = ⟨2, [8, 9], 0, 1⟩ := by
  refine ⟨⟨by decide,
    claim_C5_frame_buffer.1 30 (initialCapture 30) [1, 2, 3] rfl
      (by decide) (by decide)⟩, ?_⟩
  rw [claim_C5_frame_buffer.2.1 ⟨2, [7, 8], 0, 0⟩ 9 (by decide) (by decide)]
  decide

/-! ## Images and OpenCV primitives (`src/vision/camera_vision_system.py`)

A grayscale image is a width/height pair with a total pixel function
(`px y x`, row-major as in OpenCV); only the in-bounds rectangle is
meaningful.  Input frames may additionally carry colour channels. -/

/-- A single-channel image buffer. -/
structure Img where
  width : Nat
  height : Nat
  px : Nat → Nat → Nat

/-- An input frame: `color = true` models `len(frame.shape) == 3`
(three BGR channels accessed via `chan 0/1/2`); otherwise the frame is
single-channel and `chan 0` holds the data. -/
structure Frame where
  width : Nat
  height : Nat
  color : Bool
  chan : Nat → Nat → Nat → Nat

/-- `cv2.cvtColor(frame, COLOR_BGR2GRAY)`: standard luma combination of
the B, G, R channels with round-to-nearest (exact fixed-point
coefficients are irrelevant to the claims below). -/
def cvtGray (f : Frame) : Img :=
  ⟨f.width, f.height, fun y x =>
    (299 * f.chan 2 y x + 587 * f.chan 1 y x + 114 * f.chan 0 y x + 500) / 1000⟩

/-- `BORDER_REFLECT_101` index reflection used by `cv2.GaussianBlur`. -/
def reflect101 (n : Nat) (t : Int) : Nat :=
  if t < 0 then (-t).toNat
  else if t < (n : Int) then t.toNat
  else (2 * (n : Int) - 2 - t).toNat

/-- The fixed 5-tap kernel `[1,4,6,4,1]/16` that `cv2.GaussianBlur`
uses for `ksize = 5, sigma = 0`, as offset/weight pairs. -/
def gk5 : List (Int × Nat) := [(-2, 1), (-1, 4), (0, 6), (1, 4), (2, 1)]

/-- `cv2.GaussianBlur(gray, (5, 5), 0)`: separable convolution with the
5-tap kernel (total weight 256), reflected borders, round to nearest. -/
def gaussianBlur5 (m : Img) : Img :=
  ⟨m.width, m.height, fun y x =>
    (gk5.foldl (fun acc p =>
        acc + p.2 * gk5.foldl (fun acc2 q =>
          acc2 + q.2 * m.px (reflect101 m.height ((y : Int) + p.1))
                           (reflect101 m.width ((x : Int) + q.1))) 0) 0
      + 128) / 256⟩

/-- `preprocess` (lines 277-285): convert colour frames to gray, then
blur; returns `(gray, blurred)`. -/
def preprocess (f : Frame) : Img × Img :=
  let gray := if f.color then cvtGray f else ⟨f.width, f.height, f.chan 0⟩
  (gray, gaussianBlur5 gray)

/-- `cv2.threshold(img, t, 255, THRESH_BINARY)`: pixels strictly above
`t` become 255, the rest 0. -/
def thresholdBin (t : Nat) (m : Img) : Img :=
  ⟨m.width, m.height, fun y x => if t < m.px y x then 255 else 0⟩

/-- `cv2.threshold(img, t, 255, THRESH_BINARY_INV)`. -/
def thresholdBinInv (t : Nat) (m : Img) : Img :=
  ⟨m.width, m.height, fun y x => if t < m.px y x then 0 else 255⟩

/-- `cv2.inRange(img, low, high)`: 255 on `low ≤ px ≤ high`, else 0. -/
def inRangeImg (low high : Nat) (m : Img) : Img :=
  ⟨m.width, m.height, fun y x =>
    if low ≤ m.px y x ∧ m.px y x ≤ high then 255 else 0⟩

/-- `cv2.bitwise_and` of two equal-sized masks. -/
def bitAnd (a b : Img) : Img :=
  ⟨a.width, a.height, fun y x => Nat.land (a.px y x) (b.px y x)⟩

/-- `np.zeros_like(m)`. -/
def zerosLike (m : Img) : Img := ⟨m.width, m.height, fun _ _ => 0⟩

/-- Offsets covered by a `k×k` all-ones kernel with the default OpenCV
anchor `(k/2, k/2)`: `-(k/2) .. k-1-(k/2)`. -/
def kOffsets (k : Nat) : List Int :=
  (List.range k).map (fun i : Nat => (i : Int) - ((k / 2 : Nat) : Int))

/-- The in-bounds positions sampled by a `k×k` kernel anchored at
`(y, x)` in an `h×w` image.  Out-of-bounds positions are skipped, which
matches OpenCV's default morphology border value (it never affects the
max/min). -/
def neighborhood (k h w y x : Nat) : List (Nat × Nat) :=
  (kOffsets k).flatMap fun dy =>
    (kOffsets k).filterMap fun dx =>
      let yy := (y : Int) + dy
      let xx := (x : Int) + dx
      if 0 ≤ yy ∧ yy < (h : Int) ∧ 0 ≤ xx ∧ xx < (w : Int) then
        some (yy.toNat, xx.toNat)
      else none

/-- `cv2.dilate` with a `k×k` all-ones kernel: max over the sampled
neighborhood (uint8 minimum 0 at the border). -/
def dilate (k : Nat) (m : Img) : Img :=
  ⟨m.width, m.height, fun y x =>
    (neighborhood k m.height m.width y x).foldl
      (fun a p => max a (m.px p.1 p.2)) 0⟩

/-- `cv2.erode` with a `k×k` all-ones kernel: min over the sampled
neighborhood (uint8 maximum 255 at the border). -/
def erode (k : Nat) (m : Img) : Img :=
  ⟨m.width, m.height, fun y x =>
    (neighborhood k m.height m.width y x).foldl
      (fun a p => min a (m.px p.1 p.2)) 255⟩

/-- Iterate an image operation. -/
def iterOp (f : Img → Img) : Nat → Img → Img
  | 0, m => m
  | n + 1, m => iterOp f n (f m)

/-- `cv2.morphologyEx(img, MORPH_CLOSE, ones(k,k), iterations = n)`:
`n` dilations followed by `n` erosions. -/
def morphClose (k n : Nat) (m : Img) : Img :=
  iterOp (erode k) n (iterOp (dilate k) n m)

/-- `cv2.morphologyEx(img, MORPH_OPEN, ones(k,k), iterations = n)`:
`n` erosions followed by `n` dilations. -/
def morphOpen (k n : Nat) (m : Img) : Img :=
  iterOp (dilate k) n (iterOp (erode k) n m)

/-- `create_roi_mask` (lines 287-292): binary threshold at 15 then a
10×10 morphological closing with 3 iterations. -/
def create_roi_mask (blurred : Img) (threshold : Nat := 15) : Img :=
  morphClose 10 3 (thresholdBin threshold blurred)

/-! ### Contour operations

`cv2.findContours` / `cv2.contourArea` / `cv2.moments` /
`cv2.boundingRect` / `cv2.drawContours` are external algorithms; they
are modelled as an explicit record of functions, mirroring the code's
dependency on the `cv2` module.  A contour is its point list. -/

/-- A contour as returned by `cv2.findContours`. -/
abbrev Contour := List (Int × Int)

/-- The OpenCV entry points used by the segmenter.  `paint m c` is the
pixel function of `m` after `cv2.drawContours(m, [c], -1, 255, -1)`;
drawing happens in place, so it cannot change the image dimensions. -/
structure ContourOps where
  findContours : Img → List Contour
  contourArea : Contour → ℚ
  m00 : Contour → ℚ
  m10 : Contour → ℚ
  m01 : Contour → ℚ
  boundingRect : Contour → Nat × Nat × Nat × Nat
  paint : Img → Contour → Nat → Nat → Nat

/-- `cv2.drawContours(filtered, [cnt], -1, 255, -1)` as an image. -/
def drawFilled (ops : ContourOps) (m : Img) (c : Contour) : Img :=
  ⟨m.width, m.height, ops.paint m c⟩

/-- Threshold table for one modality: structure name to `[low, high]`. -/
abbrev ThresholdTable := List (String × (Nat × Nat))

/-- Lines 305-318 of `segment_structure`: threshold (inverse when the
low bound is 0, banded otherwise), intersect with the ROI, close (5×5,
2 iterations), open (5×5, 1 iteration). -/
def rawStructureMask (blurred roiMask : Img) (low high : Nat) : Img :=
  let mask := if low = 0 then thresholdBinInv high blurred
              else inRangeImg low high blurred
  let mask := bitAnd mask roiMask
  morphOpen 5 1 (morphClose 5 2 mask)

/-- Lines 320-327 of `segment_structure`: redraw only the connected
components whose contour area exceeds `min_area` onto a zero image. -/
def filterSmall (ops : ContourOps) (minArea : ℚ) (mask : Img) : Img :=
  (ops.findContours mask).foldl
    (fun filtered cnt =>
      if minArea < ops.contourArea cnt then drawFilled ops filtered cnt
      else filtered)
    (zerosLike mask)

/-- `segment_structure` (lines 294-327): an all-zero mask for a name
absent from the threshold table, otherwise threshold, ROI intersection,
morphological cleanup, and small-region filtering. -/
def segment_structure (ops : ContourOps) (thresholds : ThresholdTable)
    (blurred roiMask : Img) (name : String) (minArea : ℚ := 300) : Img :=
  match thresholds.lookup name with
  | none => zerosLike blurred
  | some (low, high) =>
    filterSmall ops minArea (rawStructureMask blurred roiMask low high)

/-- The `OR_CAMERA` row of `NeuroimagingSegmenter.THRESHOLDS`. -/
def orCameraTable : ThresholdTable :=
  [("blood", (0, 80)), ("tissue", (100, 200)), ("instrument", (200, 255))]

/-- `NeuroimagingSegmenter.THRESHOLDS` (lines 253-271). -/
def THRESHOLDS : List (String × ThresholdTable) :=
  [("USG", [("tumor", (160, 255)), ("csf", (0, 40)),
            ("parenchyma", (50, 150))]),
   ("T1_GD", [("enhancement", (170, 255)), ("necrotic", (0, 45)),
              ("edema", (45, 85)), ("csf", (0, 35)),
              ("parenchyma", (85, 165))]),
   ("OR_CAMERA", orCameraTable)]

/-- The segmenter's per-instance state (`__init__`, lines 273-275). -/
structure NeuroimagingSegmenter where
  modality : String
  thresholds : ThresholdTable
  deriving Repr, DecidableEq

/-- `NeuroimagingSegmenter.__init__`:
`self.thresholds = self.THRESHOLDS.get(modality, self.THRESHOLDS["OR_CAMERA"])`. -/
def mkSegmenter (modality : String := "OR_CAMERA") : NeuroimagingSegmenter :=
  ⟨modality, (THRESHOLDS.lookup modality).getD orCameraTable⟩

/-- `segment_all` (lines 329-338): preprocess, build the ROI mask, and
segment every structure listed in the active threshold table. -/
def segment_all (ops : ContourOps) (s : NeuroimagingSegmenter)
    (f : Frame) : List (String × Img) :=
  let pre := preprocess f
  let blurred := pre.2
  let roiMask := create_roi_mask blurred
  s.thresholds.map fun p =>
    (p.1, segment_structure ops s.thresholds blurred roiMask p.1)

/-- Python `int()` on a rational: truncation toward zero. -/
def pyInt (q : ℚ) : Int := if 0 ≤ q then ⌊q⌋ else -⌊-q⌋

/-- Python slice `cnt[::5]`: every fifth point. -/
def everyFifth {α : Type} (l : List α) : List α :=
  (l.enum.filter fun p => p.1 % 5 == 0).map Prod.snd

/-- One entry of the per-structure list built by
`get_contours_and_centroids` (lines 371-386). -/
structure RegionInstance where
  centroid : Int × Int
  area : ℚ
  boundingBox : Nat × Nat × Nat × Nat
  contour : Contour

/-- The record built for one contour with positive zeroth moment. -/
def mkRegion (ops : ContourOps) (cnt : Contour) : RegionInstance :=
  { centroid := (pyInt (ops.m10 cnt / ops.m00 cnt),
                 pyInt (ops.m01 cnt / ops.m00 cnt)),
    area := ops.contourArea cnt,
    boundingBox := ops.boundingRect cnt,
    contour := if cnt.length < 100 then cnt else everyFifth cnt }

/-- `get_contours_and_centroids` (lines 362-391): for each mask, keep
the external contours with positive zeroth moment; a structure whose
list ends up empty is omitted from the result. -/
def get_contours_and_centroids (ops : ContourOps)
    (masks : List (String × Img)) : List (String × List RegionInstance) :=
  masks.foldl
    (fun results p =>
      let structureData := (ops.findContours p.2).foldl
        (fun acc cnt =>
          if 0 < ops.m00 cnt then acc ++ [mkRegion ops cnt] else acc) []
      if structureData.isEmpty then results
      else results ++ [(p.1, structureData)])
    []

/-! ### Helper lemmas about the folds above -/

theorem foldl_append_if {α β : Type} (P : α → Prop) [DecidablePred P]
    (g : α → β) (l : List α) (acc : List β) :
    l.foldl (fun r a => if P a then r ++ [g a] else r) acc =
      acc ++ (l.filter fun a => decide (P a)).map g := by
  induction l generalizing acc with
  | nil => simp
  | cons a l ih =>
    by_cases h : P a <;> simp [List.foldl_cons, h, ih, List.filter_cons]

/-- The per-mask structure list in closed form. -/
def structData (ops : ContourOps) (m : Img) : List RegionInstance :=
  ((ops.findContours m).filter fun c => decide (0 < ops.m00 c)).map
    (mkRegion ops)

theorem structData_ne_nil_iff (ops : ContourOps) (m : Img) :
    structData ops m ≠ [] ↔ ∃ c ∈ ops.findContours m, 0 < ops.m00 c := by
  unfold structData
  constructor
  · intro h
    rcases hf : (ops.findContours m).filter
        (fun c => decide (0 < ops.m00 c)) with _ | ⟨c, cs⟩
    · exact absurd (by rw [hf]; rfl) h
    · have hc : c ∈ (ops.findContours m).filter
          (fun c => decide (0 < ops.m00 c)) := by
        rw [hf]; exact List.mem_cons_self _ _
      have hmem := List.mem_filter.mp hc
      exact ⟨c, hmem.1, of_decide_eq_true hmem.2⟩
  · rintro ⟨c, hc, hpos⟩ hmap
    have hcf : c ∈ (ops.findContours m).filter
        (fun c => decide (0 < ops.m00 c)) :=
      List.mem_filter.mpr ⟨hc, decide_eq_true hpos⟩
    have hmm := List.mem_map_of_mem (mkRegion ops) hcf
    rw [hmap] at hmm
    exact absurd hmm (List.not_mem_nil _)

theorem get_contours_eq (ops : ContourOps) (masks : List (String × Img)) :
    get_contours_and_centroids ops masks =
      (masks.filter fun p => !(structData ops p.2).isEmpty).map
        fun p => (p.1, structData ops p.2) := by
  unfold get_contours_and_centroids
  have hstep : ∀ (acc : List (String × List RegionInstance)),
      masks.foldl
        (fun results p =>
          let structureData := (ops.findContours p.2).foldl
            (fun acc cnt =>
              if 0 < ops.m00 cnt then acc ++ [mkRegion ops cnt] else acc) []
          if structureData.isEmpty then results
          else results ++ [(p.1, structureData)]) acc =
      acc ++ (masks.filter fun p => !(structData ops p.2).isEmpty).map
        fun p => (p.1, structData ops p.2) := by
    intro acc
    induction masks generalizing acc with
    | nil => simp
    | cons p ps ih =>
      have hsd : (ops.findContours p.2).foldl
          (fun acc cnt =>
            if 0 < ops.m00 cnt then acc ++ [mkRegion ops cnt] else acc) [] =
          structData ops p.2 := by
        simpa [structData] using
          foldl_append_if (fun c => 0 < ops.m00 c) (mkRegion ops)
            (ops.findContours p.2) []
      by_cases h : (structData ops p.2).isEmpty <;>
        simp [List.foldl_cons, hsd, h, ih, List.filter_cons]
  simpa using hstep []

/-- Claim C10: the result of `get_contours_and_centroids` contains a key
for a structure iff some entry of the mask dictionary under that name
has at least one external contour with positive zeroth image moment
(the code's `M["m00"] > 0`; `cv2` moments of external contours are
nonnegative, so positive coincides with nonzero), and no structure is
ever mapped to an empty list. -/
theorem claim_C10_contour_keys (ops : ContourOps)
    (masks : List (String × Img)) :
    (∀ name : String,
        name ∈ (get_contours_and_centroids ops masks).map Prod.fst ↔
          ∃ p ∈ masks, p.1 = name ∧
            ∃ c ∈ ops.findContours p.2, 0 < ops.m00 c)
    ∧ ∀ q ∈ get_contours_and_centroids ops masks, q.2 ≠ [] := by
  constructor
  · intro name
    rw [get_contours_eq]
    constructor
    · intro h
      rw [List.mem_map] at h
      obtain ⟨q, hq, rfl⟩ := h
      rw [List.mem_map] at hq
      obtain ⟨p, hp, rfl⟩ := hq
      have hmem := List.mem_filter.mp hp
      have hne : structData ops p.2 ≠ [] := by
        intro hnil
        rw [hnil] at hmem
        simp at hmem
      exact ⟨p, hmem.1, rfl, (structData_ne_nil_iff ops p.2).mp hne⟩
    · rintro ⟨p, hp, hname, hex⟩
      have hne := (structData_ne_nil_iff ops p.2).mpr hex
      rw [List.mem_map]
      refine ⟨(p.1, structData ops p.2), ?_, hname⟩
      rw [List.mem_map]
      refine ⟨p, List.mem_filter.mpr ⟨hp, ?_⟩, rfl⟩
      simpa [List.isEmpty_iff] using hne
  · intro q hq
    rw [get_contours_eq] at hq
    rw [List.mem_map] at hq
    obtain ⟨p, hp, rfl⟩ := hq
    have hmem := List.mem_filter.mp hp
    intro hnil
    have hnil' : structData ops p.2 = [] := hnil
    rw [hnil'] at hmem
    simp at hmem

/-- A degenerate `ContourOps` used as a concrete witness instance. -/
def trivialOps : ContourOps :=
  ⟨fun _ => [], fun _ => 0, fun _ => 0, fun _ => 0, fun _ => 0,
   fun _ => (0, 0, 0, 0), fun m _ => m.px⟩

/-- A `ContourOps` whose `findContours` reports a single-point contour
with unit moment on any mask, used as a concrete witness instance. -/
def onePointOps : ContourOps :=
  ⟨fun _ => [[(0, 0)]], fun _ => 1, fun _ => 1, fun _ => 0, fun _ => 0,
   fun _ => (0, 0, 1, 1), fun m _ => m.px⟩

/-- Witness for C10: at a one-mask dictionary, the key is present under
`onePointOps` (one contour of positive moment) and its list is
nonempty. -/
theorem claim_C10_contour_keys_witness :
    ("roi" ∈ (get_contours_and_centroids onePointOps
        [("roi", zerosLike ⟨1, 1, fun _ _ => 0⟩)]).map Prod.fst)
    ∧ (("roi", [mkRegion onePointOps [(0, 0)]]) ∈
        get_contours_and_centroids onePointOps
          [("roi", zerosLike ⟨1, 1, fun _ _ => 0⟩)] →
        [mkRegion onePointOps [(0, 0)]] ≠ []) := by
  constructor
  · exact (claim_C10_contour_keys onePointOps
      [("roi", zerosLike ⟨1, 1, fun _ _ => 0⟩)]).1 "roi" |>.mpr
      ⟨("roi", zerosLike ⟨1, 1, fun _ _ => 0⟩), by simp, rfl,
        [(0, 0)], by simp [onePointOps], by simp [onePointOps]⟩
  · intro hmem
    exact (claim_C10_contour_keys onePointOps
      [("roi", zerosLike ⟨1, 1, fun _ _ => 0⟩)]).2 _ hmem

/-! ### Dimension preservation and claims C6, C7, C9 -/

@[simp] theorem gaussianBlur5_width (m : Img) :
    (gaussianBlur5 m).width = m.width := rfl

@[simp] theorem gaussianBlur5_height (m : Img) :
    (gaussianBlur5 m).height = m.height := rfl

@[simp] theorem thresholdBin_width (t : Nat) (m : Img) :
    (thresholdBin t m).width = m.width := rfl

@[simp] theorem thresholdBin_height (t : Nat) (m : Img) :
    (thresholdBin t m).height = m.height := rfl

@[simp] theorem thresholdBinInv_width (t : Nat) (m : Img) :
    (thresholdBinInv t m).width = m.width := rfl

@[simp] theorem thresholdBinInv_height (t : Nat) (m : Img) :
    (thresholdBinInv t m).height = m.height := rfl

@[simp] theorem inRangeImg_width (lo hi : Nat) (m : Img) :
    (inRangeImg lo hi m).width = m.width := rfl

@[simp] theorem inRangeImg_height (lo hi : Nat) (m : Img) :
    (inRangeImg lo hi m).height = m.height := rfl

@[simp] theorem bitAnd_width (a b : Img) : (bitAnd a b).width = a.width := rfl

@[simp] theorem bitAnd_height (a b : Img) : (bitAnd a b).height = a.height := rfl

@[simp] theorem zerosLike_width (m : Img) : (zerosLike m).width = m.width := rfl

@[simp] theorem zerosLike_height (m : Img) : (zerosLike m).height = m.height := rfl

@[simp] theorem dilate_width (k : Nat) (m : Img) :
    (dilate k m).width = m.width := rfl

@[simp] theorem dilate_height (k : Nat) (m : Img) :
    (dilate k m).height = m.height := rfl

@[simp] theorem erode_width (k : Nat) (m : Img) :
    (erode k m).width = m.width := rfl

@[simp] theorem erode_height (k : Nat) (m : Img) :
    (erode k m).height = m.height := rfl

@[simp] theorem drawFilled_width (ops : ContourOps) (m : Img) (c : Contour) :
    (drawFilled ops m c).width = m.width := rfl

@[simp] theorem drawFilled_height (ops : ContourOps) (m : Img) (c : Contour) :
    (drawFilled ops m c).height = m.height := rfl

theorem iterOp_dims (f : Img → Img)
    (hf : ∀ m, (f m).width = m.width ∧ (f m).height = m.height) :
    ∀ (n : Nat) (m : Img),
      (iterOp f n m).width = m.width ∧ (iterOp f n m).height = m.height := by
  intro n
  induction n with
  | zero => intro m; exact ⟨rfl, rfl⟩
  | succ n ih =>
    intro m
    have h1 := ih (f m)
    have h2 := hf m
    exact ⟨by rw [iterOp, h1.1, h2.1], by rw [iterOp, h1.2, h2.2]⟩

@[simp] theorem morphClose_width (k n : Nat) (m : Img) :
    (morphClose k n m).width = m.width := by
  unfold morphClose
  rw [(iterOp_dims (erode k) (fun m => ⟨rfl, rfl⟩) n _).1,
    (iterOp_dims (dilate k) (fun m => ⟨rfl, rfl⟩) n m).1]

@[simp] theorem morphClose_height (k n : Nat) (m : Img) :
    (morphClose k n m).height = m.height := by
  unfold morphClose
  rw [(iterOp_dims (erode k) (fun m => ⟨rfl, rfl⟩) n _).2,
    (iterOp_dims (dilate k) (fun m => ⟨rfl, rfl⟩) n m).2]

@[simp] theorem morphOpen_width (k n : Nat) (m : Img) :
    (morphOpen k n m).width = m.width := by
  unfold morphOpen
  rw [(iterOp_dims (dilate k) (fun m => ⟨rfl, rfl⟩) n _).1,
    (iterOp_dims (erode k) (fun m => ⟨rfl, rfl⟩) n m).1]

@[simp] theorem morphOpen_height (k n : Nat) (m : Img) :
    (morphOpen k n m).height = m.height := by
  unfold morphOpen
  rw [(iterOp_dims (dilate k) (fun m => ⟨rfl, rfl⟩) n _).2,
    (iterOp_dims (erode k) (fun m => ⟨rfl, rfl⟩) n m).2]

theorem foldl_draw_dims (ops : ContourOps) (minA : ℚ) (l : List Contour) :
    ∀ acc : Img,
      ((l.foldl (fun filtered cnt =>
          if minA < ops.contourArea cnt then drawFilled ops filtered cnt
          else filtered) acc).width = acc.width ∧
       (l.foldl (fun filtered cnt =>
          if minA < ops.contourArea cnt then drawFilled ops filtered cnt
          else filtered) acc).height = acc.height) := by
  induction l with
  | nil => intro acc; exact ⟨rfl, rfl⟩
  | cons c l ih =>
    intro acc
    rw [List.foldl_cons]
    by_cases h : minA < ops.contourArea c
    · simpa [h] using ih (drawFilled ops acc c)
    · simpa [h] using ih acc

@[simp] theorem rawStructureMask_width (b r : Img) (lo hi : Nat) :
    (rawStructureMask b r lo hi).width = b.width := by
  unfold rawStructureMask
  by_cases hlo : lo = 0 <;> simp [hlo]

@[simp] theorem rawStructureMask_height (b r : Img) (lo hi : Nat) :
    (rawStructureMask b r lo hi).height = b.height := by
  unfold rawStructureMask
  by_cases hlo : lo = 0 <;> simp [hlo]

@[simp] theorem filterSmall_width (ops : ContourOps) (minA : ℚ) (m : Img) :
    (filterSmall ops minA m).width = m.width := by
  unfold filterSmall
  rw [(foldl_draw_dims ops minA (ops.findContours m) (zerosLike m)).1]
  rfl

@[simp] theorem filterSmall_height (ops : ContourOps) (minA : ℚ) (m : Img) :
    (filterSmall ops minA m).height = m.height := by
  unfold filterSmall
  rw [(foldl_draw_dims ops minA (ops.findContours m) (zerosLike m)).2]
  rfl

theorem segment_structure_dims (ops : ContourOps) (t : ThresholdTable)
    (b r : Img) (name : String) (minA : ℚ) :
    (segment_structure ops t b r name minA).width = b.width ∧
    (segment_structure ops t b r name minA).height = b.height := by
  unfold segment_structure
  cases ht : t.lookup name with
  | none => exact ⟨rfl, rfl⟩
  | some p =>
    obtain ⟨lo, hi⟩ := p
    exact ⟨by simp, by simp⟩

theorem preprocess_dims (f : Frame) :
    (preprocess f).2.width = f.width ∧ (preprocess f).2.height = f.height := by
  unfold preprocess
  cases hc : f.color <;> simp [hc, cvtGray]

theorem lookup_mem {α β : Type} [BEq α] (l : List (α × β)) (k : α) (v : β)
    (h : l.lookup k = some v) : ∃ k', (k', v) ∈ l := by
  induction l with
  | nil => simp [List.lookup] at h
  | cons a l ih =>
    obtain ⟨ka, va⟩ := a
    cases hk : k == ka with
    | false =>
      simp [List.lookup, hk] at h
      obtain ⟨k', hm⟩ := ih h
      exact ⟨k', List.mem_cons_of_mem _ hm⟩
    | true =>
      simp [List.lookup, hk] at h
      exact ⟨ka, by simp [h]⟩

/-- Claim C7: for every input frame (single- or multi-channel), every
mask returned by `segment_all` has exactly the width and height of the
input frame. -/
theorem claim_C7_mask_dims (ops : ContourOps) (s : NeuroimagingSegmenter)
    (f : Frame) (name : String) (mask : Img)
    (h : (segment_all ops s f).lookup name = some mask) :
    mask.width = f.width ∧ mask.height = f.height := by
  obtain ⟨k', hm⟩ := lookup_mem _ _ _ h
  simp only [segment_all, List.mem_map] at hm
  obtain ⟨q, hq, heq⟩ := hm
  have hmask : mask = segment_structure ops s.thresholds (preprocess f).2
      (create_roi_mask (preprocess f).2) q.1 := (congrArg Prod.snd heq).symm
  rw [hmask]
  have hd := segment_structure_dims ops s.thresholds (preprocess f).2
    (create_roi_mask (preprocess f).2) q.1 300
  have hp := preprocess_dims f
  exact ⟨hd.1.trans hp.1, hd.2.trans hp.2⟩

/-- A 1×1 all-black single-channel frame, used as a witness input. -/
def unitFrame : Frame := ⟨1, 1, false, fun _ _ _ => 0⟩

/-- Witness for C7 at a concrete frame, segmenter and mask. -/
theorem claim_C7_mask_dims_witness :
    ((segment_all trivialOps (mkSegmenter "OR_CAMERA") unitFrame).lookup
        "blood" =
      some (segment_structure trivialOps (mkSegmenter "OR_CAMERA").thresholds
        (preprocess unitFrame).2 (create_roi_mask (preprocess unitFrame).2)
        "blood"))
    ∧ ((segment_structure trivialOps (mkSegmenter "OR_CAMERA").thresholds
        (preprocess unitFrame).2 (create_roi_mask (preprocess unitFrame).2)
        "blood").width = unitFrame.width ∧
       (segment_structure trivialOps (mkSegmenter "OR_CAMERA").thresholds
        (preprocess unitFrame).2 (create_roi_mask (preprocess unitFrame).2)
        "blood").height = unitFrame.height) :=
  ⟨rfl, claim_C7_mask_dims trivialOps (mkSegmenter "OR_CAMERA") unitFrame
    "blood" _ rfl⟩

/-- Counterexample to claim C6 as stated: under the `OR_CAMERA`
modality, the name `tumor` is absent from the threshold table, and
`segment_all` omits it from its result entirely instead of returning an
all-zero mask under that name. -/
theorem claim_C6_counterexample :
    (segment_all trivialOps (mkSegmenter "OR_CAMERA") unitFrame).lookup
        "tumor" = none
    ∧ "tumor" ∉ (segment_all trivialOps (mkSegmenter "OR_CAMERA")
        unitFrame).map Prod.fst := by
  constructor
  · rfl
  · have hkeys : (segment_all trivialOps (mkSegmenter "OR_CAMERA")
        unitFrame).map Prod.fst = ["blood", "tissue", "instrument"] := rfl
    rw [hkeys]
    decide

/-- Claim C6 (amended): `segment_structure`, called with a structure
name absent from the threshold table, returns an all-zero mask of the
frame's shape (`np.zeros_like(blurred)`); `segment_all` itself returns
masks exactly for the names present in the active table, omitting
absent names. -/
theorem claim_C6_absent_structure :
    (∀ (ops : ContourOps) (t : ThresholdTable) (blurred roi : Img)
        (name : String) (minA : ℚ),
        t.lookup name = none →
        segment_structure ops t blurred roi name minA = zerosLike blurred)
    ∧ ∀ (ops : ContourOps) (s : NeuroimagingSegmenter) (f : Frame),
        (segment_all ops s f).map Prod.fst = s.thresholds.map Prod.fst := by
  constructor
  · intro ops t b r n a h
    unfold segment_structure
    rw [h]
  · intro ops s f
    simp [segment_all]

/-- Witness for C6 (amended) at a concrete absent name. -/
theorem claim_C6_absent_structure_witness :
    orCameraTable.lookup "tumor" = none ∧
    segment_structure trivialOps orCameraTable (zerosLike ⟨2, 2, fun _ _ => 0⟩)
        (zerosLike ⟨2, 2, fun _ _ => 0⟩) "tumor" 300 =
      zerosLike (zerosLike ⟨2, 2, fun _ _ => 0⟩) :=
  ⟨by decide, claim_C6_absent_structure.1 trivialOps orCameraTable _ _
    "tumor" 300 (by decide)⟩

/-- Claim C9: constructing the segmenter with a modality name absent
from `THRESHOLDS` does not raise (the embedding is total, mirroring
`dict.get` with a default): the engine falls back to the `OR_CAMERA`
table, and every subsequent `segment_all` call behaves exactly as with
the `OR_CAMERA` default. -/
theorem claim_C9_unknown_modality (m : String)
    (h : THRESHOLDS.lookup m = none) :
    (mkSegmenter m).thresholds = orCameraTable
    ∧ ∀ (ops : ContourOps) (f : Frame),
        segment_all ops (mkSegmenter m) f =
          segment_all ops (mkSegmenter "OR_CAMERA") f := by
  have hth : (mkSegmenter m).thresholds = orCameraTable := by
    unfold mkSegmenter
    rw [h]
    rfl
  refine ⟨hth, fun ops f => ?_⟩
  have hoc : (mkSegmenter "OR_CAMERA").thresholds = orCameraTable := by decide
  simp only [segment_all, hth, hoc]

/-- Witness for C9 at the concrete unknown modality name
"ultrasound" (the table key is "USG", so this name is absent). -/
theorem claim_C9_unknown_modality_witness :
    THRESHOLDS.lookup "ultrasound" = none ∧
    (mkSegmenter "ultrasound").thresholds = orCameraTable :=
  ⟨by decide, (claim_C9_unknown_modality "ultrasound" (by decide)).1⟩

/-! ### Constant masks through morphology, and claim C8 -/

/-- The in-bounds pixels of `m` all equal `v`. -/
def OnGrid (m : Img) (v : Nat) : Prop :=
  ∀ y < m.height, ∀ x < m.width, m.px y x = v

theorem neighborhood_mem_bounds {k h w y x : Nat} {p : Nat × Nat}
    (hp : p ∈ neighborhood k h w y x) : p.1 < h ∧ p.2 < w := by
  unfold neighborhood at hp
  simp only [List.mem_flatMap, List.mem_filterMap] at hp
  obtain ⟨dy, _, dx, _, hif⟩ := hp
  split at hif
  · next hcond =>
    obtain ⟨h1, h2, h3, h4⟩ := hcond
    cases hif
    constructor <;> simp <;> omega
  · exact absurd hif (by simp)

theorem zero_mem_kOffsets {k : Nat} (hk : 0 < k) : (0 : Int) ∈ kOffsets k := by
  have h0 : k / 2 < k := by omega
  have h1 : ((k / 2 : Nat) : Int) - ((k / 2 : Nat) : Int) ∈ kOffsets k := by
    unfold kOffsets
    exact List.mem_map_of_mem _ (List.mem_range.mpr h0)
  simpa using h1

theorem self_mem_neighborhood {k h w y x : Nat} (hk : 0 < k)
    (hy : y < h) (hx : x < w) : (y, x) ∈ neighborhood k h w y x := by
  unfold neighborhood
  simp only [List.mem_flatMap, List.mem_filterMap]
  refine ⟨0, zero_mem_kOffsets hk, 0, zero_mem_kOffsets hk, ?_⟩
  rw [if_pos (by omega)]
  simp

theorem neighborhood_ne_nil {k h w y x : Nat} (hk : 0 < k)
    (hy : y < h) (hx : x < w) : neighborhood k h w y x ≠ [] := by
  intro hnil
  have := self_mem_neighborhood (w := w) hk hy hx
  rw [hnil] at this
  exact absurd this (List.not_mem_nil _)

theorem foldl_max_stay {α : Type} (f : α → Nat) (v : Nat) :
    ∀ l : List α, (∀ p ∈ l, f p ≤ v) →
      l.foldl (fun a p => max a (f p)) v = v := by
  intro l
  induction l with
  | nil => intro _; rfl
  | cons p l ih =>
    intro hall
    simp only [List.foldl_cons]
    rw [Nat.max_eq_left (hall p (List.mem_cons_self p l))]
    exact ih fun q hq => hall q (List.mem_cons_of_mem _ hq)

theorem foldl_max_all {α : Type} (f : α → Nat) (v : Nat) (l : List α)
    (a : Nat) (hne : l ≠ []) (hall : ∀ p ∈ l, f p = v) (ha : a ≤ v) :
    l.foldl (fun a p => max a (f p)) a = v := by
  cases l with
  | nil => exact absurd rfl hne
  | cons p l =>
    simp only [List.foldl_cons]
    rw [hall p (List.mem_cons_self p l), Nat.max_eq_right ha]
    exact foldl_max_stay f v l fun q hq =>
      Nat.le_of_eq (hall q (List.mem_cons_of_mem _ hq))

theorem foldl_min_stay {α : Type} (f : α → Nat) (v : Nat) :
    ∀ l : List α, (∀ p ∈ l, v ≤ f p) →
      l.foldl (fun a p => min a (f p)) v = v := by
  intro l
  induction l with
  | nil => intro _; rfl
  | cons p l ih =>
    intro hall
    simp only [List.foldl_cons]
    rw [Nat.min_eq_left (hall p (List.mem_cons_self p l))]
    exact ih fun q hq => hall q (List.mem_cons_of_mem _ hq)

theorem foldl_min_all {α : Type} (f : α → Nat) (v : Nat) (l : List α)
    (a : Nat) (hne : l ≠ []) (hall : ∀ p ∈ l, f p = v) (ha : v ≤ a) :
    l.foldl (fun a p => min a (f p)) a = v := by
  cases l with
  | nil => exact absurd rfl hne
  | cons p l =>
    simp only [List.foldl_cons]
    rw [hall p (List.mem_cons_self p l), Nat.min_eq_right ha]
    exact foldl_min_stay f v l fun q hq =>
      Nat.le_of_eq (hall q (List.mem_cons_of_mem _ hq)).symm

theorem dilate_onGrid (k : Nat) (hk : 0 < k) (v : Nat) (m : Img)
    (h : OnGrid m v) : OnGrid (dilate k m) v := by
  intro y hy x hx
  show (neighborhood k m.height m.width y x).foldl
      (fun a p => max a (m.px p.1 p.2)) 0 = v
  refine foldl_max_all _ v _ 0 (neighborhood_ne_nil hk hy hx) ?_ (Nat.zero_le v)
  intro p hp
  obtain ⟨h1, h2⟩ := neighborhood_mem_bounds hp
  exact h p.1 h1 p.2 h2

theorem erode_onGrid (k : Nat) (hk : 0 < k) (v : Nat) (hv : v ≤ 255)
    (m : Img) (h : OnGrid m v) : OnGrid (erode k m) v := by
  intro y hy x hx
  show (neighborhood k m.height m.width y x).foldl
      (fun a p => min a (m.px p.1 p.2)) 255 = v
  refine foldl_min_all _ v _ 255 (neighborhood_ne_nil hk hy hx) ?_ hv
  intro p hp
  obtain ⟨h1, h2⟩ := neighborhood_mem_bounds hp
  exact h p.1 h1 p.2 h2

theorem iterOp_onGrid (f : Img → Img) (v : Nat)
    (hf : ∀ m, OnGrid m v → OnGrid (f m) v) :
    ∀ (n : Nat) (m : Img), OnGrid m v → OnGrid (iterOp f n m) v := by
  intro n
  induction n with
  | zero => intro m h; exact h
  | succ n ih => intro m h; exact ih (f m) (hf m h)

theorem morphClose_onGrid (k n : Nat) (hk : 0 < k) (v : Nat) (hv : v ≤ 255)
    (m : Img) (h : OnGrid m v) : OnGrid (morphClose k n m) v := by
  unfold morphClose
  exact iterOp_onGrid _ v (fun m hm => erode_onGrid k hk v hv m hm) n _
    (iterOp_onGrid _ v (fun m hm => dilate_onGrid k hk v m hm) n m h)

theorem morphOpen_onGrid (k n : Nat) (hk : 0 < k) (v : Nat) (hv : v ≤ 255)
    (m : Img) (h : OnGrid m v) : OnGrid (morphOpen k n m) v := by
  unfold morphOpen
  exact iterOp_onGrid _ v (fun m hm => dilate_onGrid k hk v m hm) n _
    (iterOp_onGrid _ v (fun m hm => erode_onGrid k hk v hv m hm) n m h)

/-- The C8 scenario frame: 640×480, single channel, every pixel 100. -/
def usgFrame : Frame := ⟨640, 480, false, fun _ _ _ => 100⟩

/-- The C8 scenario segmenter: ultrasound modality (table key "USG"). -/
def usgSegmenter : NeuroimagingSegmenter := mkSegmenter "USG"

/-- Claim C8: a 640×480 single-channel frame of constant intensity 100,
segmented under the ultrasound modality, yields an all-zero `tumor`
mask (100 is below the 160 hyperechoic cutoff) and a `parenchyma` mask
covering the entire region of interest, which here is the whole frame
(every blurred pixel is 100 > the background cutoff 15).  The two
hypotheses pin down the documented behaviour of the external
`cv2.findContours` / `cv2.contourArea` / `cv2.drawContours` calls on
the only masks reaching them: an all-zero mask has no contours, and an
all-255 640×480 mask has a single external contour whose polygon area
exceeds 300 and whose filled redraw covers the frame. -/
theorem claim_C8_ultrasound_midgray (ops : ContourOps)
    (h0 : ∀ m : Img, OnGrid m 0 → ops.findContours m = [])
    (h255 : ∀ m : Img, m.width = 640 → m.height = 480 → OnGrid m 255 →
        ∃ c, ops.findContours m = [c] ∧ 300 < ops.contourArea c ∧
          ∀ (img : Img) (y x : Nat), y < 480 → x < 640 →
            ops.paint img c y x = 255) :
    ∃ tMask pMask,
      (segment_all ops usgSegmenter usgFrame).lookup "tumor" = some tMask
      ∧ (segment_all ops usgSegmenter usgFrame).lookup "parenchyma" =
          some pMask
      ∧ (∀ y < 480, ∀ x < 640, tMask.px y x = 0)
      ∧ (∀ y < 480, ∀ x < 640, pMask.px y x = 255)
      ∧ ∀ y < 480, ∀ x < 640,
          (create_roi_mask (preprocess usgFrame).2).px y x = 255 := by
  have hblur : ∀ y x, (preprocess usgFrame).2.px y x = 100 := by
    intro y x
    simp [preprocess, gaussianBlur5, gk5, usgFrame]
  have hthr : OnGrid (thresholdBin 15 (preprocess usgFrame).2) 255 := by
    intro y _ x _
    show (if 15 < (preprocess usgFrame).2.px y x then 255 else 0) = 255
    rw [hblur]
    norm_num
  have hroi : OnGrid (create_roi_mask (preprocess usgFrame).2) 255 :=
    morphClose_onGrid 10 3 (by norm_num) 255 (by norm_num) _ hthr
  have hroiH : (create_roi_mask (preprocess usgFrame).2).height = 480 := by
    simp [create_roi_mask]
    rfl
  have hroiW : (create_roi_mask (preprocess usgFrame).2).width = 640 := by
    simp [create_roi_mask]
    rfl
  -- tumor: banded threshold [160, 255] rejects every pixel
  have htum0 : OnGrid (rawStructureMask (preprocess usgFrame).2
      (create_roi_mask (preprocess usgFrame).2) 160 255) 0 := by
    have hraw : rawStructureMask (preprocess usgFrame).2
        (create_roi_mask (preprocess usgFrame).2) 160 255 =
        morphOpen 5 1 (morphClose 5 2 (bitAnd
          (inRangeImg 160 255 (preprocess usgFrame).2)
          (create_roi_mask (preprocess usgFrame).2))) := rfl
    rw [hraw]
    refine morphOpen_onGrid 5 1 (by norm_num) 0 (by norm_num) _
      (morphClose_onGrid 5 2 (by norm_num) 0 (by norm_num) _ ?_)
    intro y _ x _
    show Nat.land ((inRangeImg 160 255 (preprocess usgFrame).2).px y x)
      ((create_roi_mask (preprocess usgFrame).2).px y x) = 0
    have : (inRangeImg 160 255 (preprocess usgFrame).2).px y x = 0 := by
      show (if 160 ≤ (preprocess usgFrame).2.px y x ∧
          (preprocess usgFrame).2.px y x ≤ 255 then 255 else 0) = 0
      rw [hblur]
      norm_num
    rw [this]
    simp [Nat.land]
  have htmask : segment_structure ops usgSegmenter.thresholds
      (preprocess usgFrame).2 (create_roi_mask (preprocess usgFrame).2)
      "tumor" =
      zerosLike (rawStructureMask (preprocess usgFrame).2
        (create_roi_mask (preprocess usgFrame).2) 160 255) := by
    have hstep : segment_structure ops usgSegmenter.thresholds
        (preprocess usgFrame).2 (create_roi_mask (preprocess usgFrame).2)
        "tumor" =
        filterSmall ops 300 (rawStructureMask (preprocess usgFrame).2
          (create_roi_mask (preprocess usgFrame).2) 160 255) := rfl
    rw [hstep]
    unfold filterSmall
    rw [h0 _ htum0]
    rfl
  -- parenchyma: banded threshold [50, 150] accepts every pixel
  have hpar255 : OnGrid (rawStructureMask (preprocess usgFrame).2
      (create_roi_mask (preprocess usgFrame).2) 50 150) 255 := by
    have hraw : rawStructureMask (preprocess usgFrame).2
        (create_roi_mask (preprocess usgFrame).2) 50 150 =
        morphOpen 5 1 (morphClose 5 2 (bitAnd
          (inRangeImg 50 150 (preprocess usgFrame).2)
          (create_roi_mask (preprocess usgFrame).2))) := rfl
    rw [hraw]
    refine morphOpen_onGrid 5 1 (by norm_num) 255 (by norm_num) _
      (morphClose_onGrid 5 2 (by norm_num) 255 (by norm_num) _ ?_)
    intro y hy x hx
    show Nat.land ((inRangeImg 50 150 (preprocess usgFrame).2).px y x)
      ((create_roi_mask (preprocess usgFrame).2).px y x) = 255
    have h1 : (inRangeImg 50 150 (preprocess usgFrame).2).px y x = 255 := by
      show (if 50 ≤ (preprocess usgFrame).2.px y x ∧
          (preprocess usgFrame).2.px y x ≤ 150 then 255 else 0) = 255
      rw [hblur]
      norm_num
    have h2 : (create_roi_mask (preprocess usgFrame).2).px y x = 255 := by
      refine hroi y ?_ x ?_
      · rw [hroiH]; exact hy
      · rw [hroiW]; exact hx
    rw [h1, h2]
    decide
  have hparW : (rawStructureMask (preprocess usgFrame).2
      (create_roi_mask (preprocess usgFrame).2) 50 150).width = 640 := by
    simp
    rfl
  have hparH : (rawStructureMask (preprocess usgFrame).2
      (create_roi_mask (preprocess usgFrame).2) 50 150).height = 480 := by
    simp
    rfl
  obtain ⟨c, hfc, harea, hpaint⟩ := h255 _ hparW hparH hpar255
  have hpmask : segment_structure ops usgSegmenter.thresholds
      (preprocess usgFrame).2 (create_roi_mask (preprocess usgFrame).2)
      "parenchyma" =
      drawFilled ops (zerosLike (rawStructureMask (preprocess usgFrame).2
        (create_roi_mask (preprocess usgFrame).2) 50 150)) c := by
    have hstep : segment_structure ops usgSegmenter.thresholds
        (preprocess usgFrame).2 (create_roi_mask (preprocess usgFrame).2)
        "parenchyma" =
        filterSmall ops 300 (rawStructureMask (preprocess usgFrame).2
          (create_roi_mask (preprocess usgFrame).2) 50 150) := rfl
    rw [hstep]
    unfold filterSmall
    rw [hfc]
    simp only [List.foldl_cons, List.foldl_nil]
    rw [if_pos harea]
  refine ⟨segment_structure ops usgSegmenter.thresholds
      (preprocess usgFrame).2 (create_roi_mask (preprocess usgFrame).2)
      "tumor",
    segment_structure ops usgSegmenter.thresholds
      (preprocess usgFrame).2 (create_roi_mask (preprocess usgFrame).2)
      "parenchyma", rfl, rfl, ?_, ?_, ?_⟩
  · intro y hy x hx
    rw [htmask]
    rfl
  · intro y hy x hx
    rw [hpmask]
    exact hpaint _ y x hy hx
  · intro y hy x hx
    refine hroi y ?_ x ?_
    · rw [hroiH]; exact hy
    · rw [hroiW]; exact hx

/-- A concrete `ContourOps` satisfying the C8 hypotheses: no contours
on an all-zero mask, one dummy contour of area 301 otherwise, filled
drawing writes 255 everywhere. -/
def fullOps : ContourOps :=
  ⟨fun m => if ∀ y < m.height, ∀ x < m.width, m.px y x = 0 then []
    else [[(0, 0)]],
   fun _ => 301, fun _ => 1, fun _ => 0, fun _ => 0,
   fun _ => (0, 0, 640, 480), fun _ _ _ _ => 255⟩

/-- Witness for C8: the scenario conclusion at the concrete `fullOps`. -/
theorem claim_C8_ultrasound_midgray_witness :
    ∃ tMask pMask,
      (segment_all fullOps usgSegmenter usgFrame).lookup "tumor" = some tMask
      ∧ (segment_all fullOps usgSegmenter usgFrame).lookup "parenchyma" =
          some pMask
      ∧ (∀ y < 480, ∀ x < 640, tMask.px y x = 0)
      ∧ (∀ y < 480, ∀ x < 640, pMask.px y x = 255)
      ∧ ∀ y < 480, ∀ x < 640,
          (create_roi_mask (preprocess usgFrame).2).px y x = 255 := by
  refine claim_C8_ultrasound_midgray fullOps ?_ ?_
  · intro m hz
    have hz' : ∀ y < m.height, ∀ x < m.width, m.px y x = 0 := hz
    show (if ∀ y < m.height, ∀ x < m.width, m.px y x = 0 then []
      else [[((0 : Int), (0 : Int))]]) = []
    rw [if_pos hz']
  · intro m hw hh h255
    refine ⟨[(0, 0)], ?_, by norm_num [fullOps], fun _ _ _ _ _ => rfl⟩
    show (if ∀ y < m.height, ∀ x < m.width, m.px y x = 0 then []
      else [[((0 : Int), (0 : Int))]]) = [[(0, 0)]]
    rw [if_neg]
    intro hz
    have h1 : m.px 0 0 = 255 := h255 0 (by omega) 0 (by omega)
    have h2 : m.px 0 0 = 0 := hz 0 (by omega) 0 (by omega)
    omega

/-! ## JSON payloads (`dashboard/backend/analysis_service.py`)

The external service returns a loosely structured JSON object; it is
modelled by a small inductive type, with Python dictionaries as
association lists. -/

/-- A JSON value. -/
inductive JVal where
  | null
  | bool (b : Bool)
  | num (q : ℚ)
  | str (s : String)
  | arr (items : List JVal)
  | obj (fields : List (String × JVal))

/-- A Claude response payload (a JSON dictionary). -/
abbrev Payload := List (String × JVal)

/-- Python truthiness of a JSON value. -/
def jTruthy : JVal → Bool
  | .null => false
  | .bool b => b
  | .num q => decide (q ≠ 0)
  | .str s => decide (s ≠ "")
  | .arr l => !l.isEmpty
  | .obj l => !l.isEmpty

/-- Truthiness of a `dict.get` result (`None` is falsy). -/
def truthyOpt : Option JVal → Bool
  | some j => jTruthy j
  | none => false

/-- Python `a or b` on `dict.get` results: `a` when truthy, else `b`. -/
def pyOr (a b : Option JVal) : Option JVal := if truthyOpt a then a else b

/-- Python truthiness of an optional dictionary (used for
`self._last_claude_analysis` and `raw_analysis`): present and
non-empty. -/
def payloadTruthy : Option Payload → Bool
  | some l => !l.isEmpty
  | none => false

/-- Python `key in dict`. -/
def hasKey (p : Payload) (k : String) : Bool := (p.lookup k).isSome

/-- Python `float(v)` on the JSON values the service reads scores from.
The real `float()` raises on non-numeric shapes; the model collapses
those to 0 — no claim exercises that path. -/
def floatOf : JVal → ℚ
  | .num q => q
  | .bool b => if b then 1 else 0
  | _ => 0

/-- `_extract_safety_score` (lines 314-320): `safety_score` at the top
level, else nested under `safety`, else 100.0.  No clamping. -/
def extractSafetyScore (a : Payload) : ℚ :=
  match a.lookup "safety_score" with
  | some v => floatOf v
  | none =>
    match a.lookup "safety" with
    | some (.obj fields) =>
      match fields.lookup "safety_score" with
      | some v => floatOf v
      | none => 100
    | _ => 100

/-- `_extract_technique_score` (lines 322-328). -/
def extractTechniqueScore (a : Payload) : Option ℚ :=
  match a.lookup "overall_score" with
  | some v => some (floatOf v)
  | none =>
    match a.lookup "technique" with
    | some (.obj fields) =>
      match fields.lookup "quality_score" with
      | some v => some (floatOf v)
      | none => none
    | _ => none

/-- `_extract_instruments` (lines 330-342): try three key names,
extending with list items, or with the `identified` list of a dict. -/
def extractInstruments (a : Payload) : List JVal :=
  ["instruments", "instruments_visible", "instruments_detected"].foldl
    (fun acc k =>
      match a.lookup k with
      | some (.arr items) => acc ++ items
      | some (.obj fields) =>
        match fields.lookup "identified" with
        | some (.arr xs) => acc ++ xs
        | _ => acc
      | _ => acc) []

/-- `_extract_alerts` (lines 344-358): try four key names; bare strings
are wrapped as warning-severity messages. -/
def extractAlerts (a : Payload) : List JVal :=
  ["alerts", "critical_alerts", "warnings", "proximity_warnings"].foldl
    (fun acc k =>
      match a.lookup k with
      | some (.arr items) =>
        acc ++ items.map (fun it =>
          match it with
          | .str s => .obj [("message", .str s), ("severity", .str "warning")]
          | _ => it)
      | _ => acc) []

/-- The service's `StructureDetection` dataclass (lines 55-66); the
`metadata` dict only ever holds a `source` tag. -/
structure StructureDetection where
  name : String
  structureType : String
  centroid : Int × Int
  boundingBox : Int × Int × Int × Int
  area : ℚ
  confidence : ℚ
  isCritical : Bool
  safetyMarginMm : Option ℚ
  source : String
  deriving DecidableEq, Repr

/-- The `classifications` table of `_classify_structure` (lines 299-312). -/
def classifications : List (String × String) :=
  [("tumor", "pathology"), ("blood", "vessel"), ("tissue", "parenchyma"),
   ("instrument", "instrument"), ("csf", "csf_space"),
   ("enhancement", "pathology"), ("edema", "pathology"),
   ("parenchyma", "parenchyma"), ("necrotic", "pathology")]

/-- `_classify_structure`: table lookup on the lower-cased name with
default "other". -/
def classifyStructure (name : String) : String :=
  (classifications.lookup name.toLower).getD "other"

/-- Extract a string, defaulting when the value is not a string. -/
def jStr (v : JVal) (d : String) : String :=
  match v with
  | .str s => s
  | _ => d

/-- Bounding-box parsing of `_extract_structures` (lines 369-375):
a 4-element list is scaled by 10 (percent of a 1000×1000 frame),
anything else falls back to `(0, 0, 100, 100)`. -/
def bboxToRect (bbox : JVal) : Int × Int × Int × Int :=
  match bbox with
  | .arr [a, b, c, d] =>
    (pyInt (floatOf a * 10), pyInt (floatOf b * 10),
     pyInt ((floatOf c - floatOf a) * 10), pyInt ((floatOf d - floatOf b) * 10))
  | _ => (0, 0, 100, 100)

/-- One detection built from a dict item of `structures_identified` /
`structures` / `regions` (lines 377-387).  `//` is floor division. -/
def claudeDetection (item : List (String × JVal)) : StructureDetection :=
  let r := bboxToRect ((item.lookup "bounding_box").getD
    (.arr [.num 0, .num 0, .num 100, .num 100]))
  let x := r.1
  let y := r.2.1
  let w := r.2.2.1
  let h := r.2.2.2
  { name := jStr ((item.lookup "name").getD (.str "unknown")) "unknown",
    structureType := jStr ((item.lookup "type").getD (.str "other")) "other",
    centroid := (x + Int.fdiv w 2, y + Int.fdiv h 2),
    boundingBox := (x, y, w, h),
    area := ((w * h : Int) : ℚ),
    confidence := floatOf ((item.lookup "confidence").getD (.num (1 / 2))),
    isCritical := jTruthy ((item.lookup "safety_critical").getD (.bool false)),
    safetyMarginMm :=
      match item.lookup "safety_margin_mm" with
      | none => none
      | some .null => none
      | some v => some (floatOf v),
    source := "claude_vision" }

/-- One detection built from a dict item of the `anatomy.structures`
section (lines 390-402). -/
def anatomyDetection (item : List (String × JVal)) : StructureDetection :=
  { name := jStr ((item.lookup "name").getD (.str "unknown")) "unknown",
    structureType := jStr ((item.lookup "type").getD (.str "anatomy")) "anatomy",
    centroid := (0, 0),
    boundingBox := (0, 0, 0, 0),
    area := 0,
    confidence := floatOf ((item.lookup "confidence").getD (.num (1 / 2))),
    isCritical := jTruthy ((item.lookup "safety_critical").getD (.bool false)),
    safetyMarginMm := none,
    source := "claude_vision" }

/-- `_extract_structures` (lines 360-404). -/
def extractStructures (a : Payload) : List StructureDetection :=
  let fromKeys :=
    ["structures_identified", "structures", "regions"].foldl
      (fun acc k =>
        match a.lookup k with
        | some (.arr items) =>
          acc ++ items.filterMap (fun it =>
            match it with
            | .obj fields => some (claudeDetection fields)
            | _ => none)
        | _ => acc) []
  match a.lookup "anatomy" with
  | some (.obj an) =>
    match an.lookup "structures" with
    | some (.arr items) =>
      fromKeys ++ items.filterMap (fun it =>
        match it with
        | .obj fields => some (anatomyDetection fields)
        | _ => none)
    | _ => fromKeys
  | _ => fromKeys

/-- `_calculate_safety_score` (lines 406-418): start at 100, subtract
up to 20 points per critical structure (area/1000, capped) and 5 per
pathology detection, clamp to [0, 100]. -/
def calculateSafetyScore (structures : List StructureDetection) : ℚ :=
  let score := structures.foldl
    (fun score s =>
      let score := if s.isCritical then score - min 20 (s.area / 1000)
                   else score
      if s.structureType = "pathology" then score - 5 else score)
    100
  max 0 (min 100 score)

/-- The local-pass conversion of one region instance into a
`StructureDetection` (lines 216-225): confidence fixed at 0.85,
criticality from the name allow-list. -/
def segDetection (name : String) (inst : RegionInstance) : StructureDetection :=
  { name := name,
    structureType := classifyStructure name,
    centroid := inst.centroid,
    boundingBox := ((inst.boundingBox.1 : Int), (inst.boundingBox.2.1 : Int),
      (inst.boundingBox.2.2.1 : Int), (inst.boundingBox.2.2.2 : Int)),
    area := inst.area,
    confidence := 85 / 100,
    isCritical := name == "blood" || name == "vessels",
    safetyMarginMm := none,
    source := "segmentation" }

/-! ## `AnalysisService.analyze_frame` (lines 171-297)

Per-call inputs that the Python code obtains from the environment —
the clock reading used for the throttle check, the outcome of the
segmentation `try` block, and the outcome of awaiting the Claude
analyzer (a returned payload or a raised exception) — are explicit
fields of `AnalyzeInput`.  The `try/except` around the awaited call is
modelled by matching on the `Except` outcome, so the embedding is a
total function: no exception propagates out of `analyze_frame`. -/

/-- `AnalysisType` (lines 46-52). -/
inductive AnalysisType where
  | segmentationOnly
  | claudeVision
  | hybrid
  | safetyCheck
  | navigation
  deriving DecidableEq, Repr

/-- Per-instance configuration (`__init__` lines 141-165):
`self.claude_analyzer` truthiness, `self.segmenter` truthiness, and
`claude_analysis_interval`. -/
structure ServiceConfig where
  claudeAvailable : Bool
  segmenterAvailable : Bool
  interval : ℚ
  deriving DecidableEq, Repr

/-- The mutable caching state (lines 166-169). -/
structure ServiceState where
  lastClaudeAnalysis : Option Payload
  lastClaudeTime : ℚ
  analysisCount : Nat

/-- The per-call inputs of `analyze_frame`. -/
structure AnalyzeInput where
  frameId : Int
  analysisType : AnalysisType
  forceClaude : Bool
  currentTime : ℚ
  segOutcome : Except String (List (String × List RegionInstance))
  claudeOutcome : Except String Payload

/-- The analysis result (lines 69-94), without the derived
`segmentation_masks` echo of the mask dictionary. -/
structure AnalysisResult where
  frameId : Int
  analysisType : AnalysisType
  safetyScore : ℚ
  techniqueScore : Option ℚ
  structures : List StructureDetection
  instruments : List JVal
  alerts : List JVal
  guidance : Option JVal
  voiceAlert : Option JVal
  rawAnalysis : Option Payload

/-- `should_run_claude` (lines 236-240): analyzer present, a
Claude-eligible analysis type, and either forced or the elapsed time
since the last external call reaches the configured interval. -/
def shouldRunClaude (cfg : ServiceConfig) (st : ServiceState)
    (inp : AnalyzeInput) : Bool :=
  cfg.claudeAvailable &&
  (inp.analysisType == .claudeVision || inp.analysisType == .hybrid ||
    inp.analysisType == .safetyCheck) &&
  (inp.forceClaude ||
    decide (cfg.interval ≤ inp.currentTime - st.lastClaudeTime))

/-- The local segmentation pass (lines 203-232): for the eligible
analysis types, convert the contours data into detections; a raised
segmentation error is caught and contributes nothing. -/
def localPass (cfg : ServiceConfig) (inp : AnalyzeInput) :
    List StructureDetection :=
  if cfg.segmenterAvailable ∧ (inp.analysisType = .segmentationOnly ∨
      inp.analysisType = .hybrid ∨ inp.analysisType = .navigation) then
    match inp.segOutcome with
    | .ok contoursData =>
      contoursData.foldl (fun acc p => acc ++ p.2.map (segDetection p.1)) []
    | .error _ => []
  else []

/-- The intermediate values assembled by `analyze_frame` before the
final result is built. -/
structure PreResult where
  safetyScore : ℚ
  techniqueScore : Option ℚ
  instruments : List JVal
  alerts : List JVal
  guidance : Option JVal
  voiceAlert : Option JVal
  rawAnalysis : Option Payload
  structures : List StructureDetection
  st : ServiceState

/-- The Claude pass (lines 234-274).  On a returned payload the cache
and throttle timestamp are updated and the payload becomes
`raw_analysis` — including when it carries an `error` key, in which
case no field extraction happens.  On a raised exception the state is
untouched and `raw_analysis` falls back to the cached payload when
that cache is truthy.  When the pass is skipped, a truthy cache is
served for non-segmentation-only types. -/
def claudePass (cfg : ServiceConfig) (st : ServiceState) (inp : AnalyzeInput)
    (localStructures : List StructureDetection) : PreResult :=
  if shouldRunClaude cfg st inp then
    match inp.claudeOutcome with
    | .ok cr =>
      let st1 := { st with lastClaudeAnalysis := some cr,
                           lastClaudeTime := inp.currentTime }
      if hasKey cr "error" then
        ⟨100, none, [], [], none, none, some cr, localStructures, st1⟩
      else
        ⟨extractSafetyScore cr, extractTechniqueScore cr,
         extractInstruments cr, extractAlerts cr,
         pyOr (cr.lookup "guidance") (cr.lookup "real_time_feedback"),
         pyOr (cr.lookup "voice_alert") (cr.lookup "voice_feedback"),
         some cr, localStructures ++ extractStructures cr, st1⟩
    | .error _ =>
      ⟨100, none, [], [], none, none,
       if payloadTruthy st.lastClaudeAnalysis then st.lastClaudeAnalysis
       else none,
       localStructures, st⟩
  else if payloadTruthy st.lastClaudeAnalysis ∧
      inp.analysisType ≠ .segmentationOnly then
    let cache := st.lastClaudeAnalysis.getD []
    ⟨extractSafetyScore cache, none, [], [], none,
     cache.lookup "voice_alert", st.lastClaudeAnalysis, localStructures, st⟩
  else
    ⟨100, none, [], [], none, none, none, localStructures, st⟩

/-- Result assembly (lines 276-297): when `raw_analysis` is falsy the
safety score is recomputed locally from the detections; the analysis
counter is incremented. -/
def mkResult (inp : AnalyzeInput) (pre : PreResult) :
    AnalysisResult × ServiceState :=
  let safety := if payloadTruthy pre.rawAnalysis then pre.safetyScore
                else calculateSafetyScore pre.structures
  (⟨inp.frameId, inp.analysisType, safety, pre.techniqueScore,
    pre.structures, pre.instruments, pre.alerts, pre.guidance,
    pre.voiceAlert, pre.rawAnalysis⟩,
   { pre.st with analysisCount := pre.st.analysisCount + 1 })

/-- `AnalysisService.analyze_frame`: local pass, Claude pass, assembly. -/
def analyze_frame (cfg : ServiceConfig) (st : ServiceState)
    (inp : AnalyzeInput) : AnalysisResult × ServiceState :=
  mkResult inp (claudePass cfg st inp (localPass cfg inp))

/-! ## `ClaudeVisionAnalyzer.analyze_frame` (lines 588-659)

The API request and the JSON decoder are external; the request outcome
is an `Except` input (raised exception message and type, or response
text), the decoder a function parameter. -/

/-- The markdown code-fence stripping of lines 642-645. -/
def stripMarkdown (text : String) : String :=
  if (text.splitOn "```json").length > 1 then
    ((((text.splitOn "```json").getD 1 "").splitOn "```").getD 0 "")
  else if (text.splitOn "```").length > 1 then
    ((((text.splitOn "```").getD 1 "").splitOn "```").getD 0 "")
  else text

/-- `ClaudeVisionAnalyzer.analyze_frame` error handling (lines
613-659): an exception raised by the API request is converted into an
`error`/`type` payload; a response that fails to decode yields the
`Failed to parse response` payload; otherwise the decoded payload is
returned.  No exception propagates. -/
def claude_vision_analyze (parse : String → Except String Payload)
    (api : Except (String × String) String) : Payload :=
  match api with
  | .error e => [("error", .str e.1), ("type", .str e.2)]
  | .ok text =>
    match parse (stripMarkdown text).trim with
    | .ok j => j
    | .error msg =>
      [("error", .str "Failed to parse response"),
       ("raw_response", .str (stripMarkdown text)),
       ("parse_error", .str msg)]

/-! ## `validate_trajectory` (lines 420-466)

The Python code compares `np.sqrt(dx**2 + dy**2)` against the margin
and the half margin, and reports `int(dist)`.  The embedding carries
the exact squared distance `d² = dx² + dy²` and uses the equivalences
`√d² < m ↔ d² < m²`, `√d² < m/2 ↔ 4·d² < m²` (both sides nonnegative)
and `int(√n) = Nat.sqrt n`, which are exact for real arithmetic. -/

/-- Squared Euclidean distance between a point and a centroid. -/
def distSq (p c : Int × Int) : Int := (p.1 - c.1) ^ 2 + (p.2 - c.2) ^ 2

/-- One warning record (lines 454-459). -/
structure TrajWarning where
  structureName : String
  distancePx : Nat
  point : Int × Int
  severity : String
  deriving DecidableEq, Repr

/-- The validation result (lines 461-466). -/
structure TrajResult where
  isSafe : Bool
  minDistancePxToCritical : Option Nat
  warnings : List TrajWarning
  recommendation : String
  deriving DecidableEq, Repr

/-- The loop body of `validate_trajectory` (lines 441-459) for one
(point, structure) pair, acting on (warnings, is_safe, min d²);
`none` plays the role of `float('inf')`. -/
def vtStep (margin : Nat) (acc : List TrajWarning × Bool × Option Int)
    (ps : (Int × Int) × StructureDetection) :
    List TrajWarning × Bool × Option Int :=
  if ps.2.isCritical then
    let d2 := distSq ps.1 ps.2.centroid
    let minD2 : Option Int :=
      some (match acc.2.2 with | none => d2 | some m => min m d2)
    if d2 < (margin : Int) ^ 2 then
      (acc.1 ++ [⟨ps.2.name, Nat.sqrt d2.toNat, ps.1,
        if 4 * d2 < (margin : Int) ^ 2 then "critical" else "warning"⟩],
       false, minD2)
    else (acc.1, acc.2.1, minD2)
  else acc

/-- `validate_trajectory`: nested loop over trajectory points (outer)
and structures (inner). -/
def validate_trajectory (trajectory : List (Int × Int))
    (structures : List StructureDetection)
    (safetyMarginPx : Nat := 50) : TrajResult :=
  let fold := (trajectory.flatMap fun p =>
      structures.map fun s => (p, s)).foldl (vtStep safetyMarginPx)
    ([], true, none)
  { isSafe := fold.2.1,
    minDistancePxToCritical := fold.2.2.map (fun d2 => Nat.sqrt d2.toNat),
    warnings := fold.1,
    recommendation := if fold.2.1 then "Clear trajectory"
                      else "Adjust trajectory to avoid critical structures" }

/-! ### Claims C1, C2, C3 -/

theorem calculateSafetyScore_bounds (l : List StructureDetection) :
    0 ≤ calculateSafetyScore l ∧ calculateSafetyScore l ≤ 100 := by
  unfold calculateSafetyScore
  exact ⟨le_max_left 0 _, max_le (by norm_num) (min_le_left _ _)⟩

/-- Claim C1 (amended): when the awaited analyzer call itself raises an
exception out of `self.claude_analyzer.analyze_frame`, and a truthy
cached external result exists, `analyze_frame` returns that cached
payload as `raw_analysis`, leaves the cache and throttle timestamp
untouched, and (the embedding being total) no exception escapes.  The
restriction to a raising await is forced by `claim_C1_counterexample`:
a timeout raised inside the API request is caught by
`ClaudeVisionAnalyzer` itself and converted into an error payload,
which `analyze_frame` then caches and returns as `raw_analysis` in
place of the previously cached payload. -/
theorem claim_C1_cache_fallback (cfg : ServiceConfig) (st : ServiceState)
    (inp : AnalyzeInput) (e : String)
    (hrun : shouldRunClaude cfg st inp = true)
    (hout : inp.claudeOutcome = .error e)
    (hcache : payloadTruthy st.lastClaudeAnalysis = true) :
    (analyze_frame cfg st inp).1.rawAnalysis = st.lastClaudeAnalysis
    ∧ (analyze_frame cfg st inp).2.lastClaudeAnalysis =
        st.lastClaudeAnalysis
    ∧ (analyze_frame cfg st inp).2.lastClaudeTime = st.lastClaudeTime := by
  unfold analyze_frame mkResult claudePass
  rw [hout]
  simp [hrun, hcache]

/-- The C1 witness scenario: analyzer available, truthy cache, an
await that raises. -/
def c1cfg : ServiceConfig := ⟨true, true, 1 / 2⟩

def c1st : ServiceState := ⟨some [("safety_score", JVal.num 80)], 0, 0⟩

def c1winp : AnalyzeInput := ⟨1, .hybrid, false, 10, .ok [], .error "imencode failed"⟩

theorem c1_run_w : shouldRunClaude c1cfg c1st c1winp = true := by
  simp only [shouldRunClaude, c1cfg, c1st, c1winp]
  norm_num

/-- Witness for C1 (amended) at a concrete raising await. -/
theorem claim_C1_cache_fallback_witness :
    (shouldRunClaude c1cfg c1st c1winp = true
      ∧ c1winp.claudeOutcome = .error "imencode failed"
      ∧ payloadTruthy c1st.lastClaudeAnalysis = true)
    ∧ (analyze_frame c1cfg c1st c1winp).1.rawAnalysis =
        some [("safety_score", JVal.num 80)] :=
  ⟨⟨c1_run_w, rfl, by decide⟩,
   (claim_C1_cache_fallback c1cfg c1st c1winp "imencode failed"
      c1_run_w rfl (by decide)).1⟩

/-- The error payload produced by `ClaudeVisionAnalyzer` for a timeout
raised inside the API request. -/
def c1err : Payload :=
  claude_vision_analyze (fun _ => .error "unreachable")
    (.error ("Request timed out.", "APITimeoutError"))

def c1inp : AnalyzeInput := ⟨1, .hybrid, false, 10, .ok [], .ok c1err⟩

/-- Counterexample to claim C1 as stated: a timeout raised inside the
API request reaches `AnalysisService` as a *returned* error payload
(`ClaudeVisionAnalyzer` catches every exception, lines 655-659), so
with a previously cached successful result present, `analyze_frame`
returns the error payload — not the cached payload — and overwrites
the cache with it. -/
theorem claim_C1_counterexample :
    shouldRunClaude c1cfg c1st c1inp = true
    ∧ (analyze_frame c1cfg c1st c1inp).1.rawAnalysis =
        some [("error", JVal.str "Request timed out."),
              ("type", JVal.str "APITimeoutError")]
    ∧ (analyze_frame c1cfg c1st c1inp).1.rawAnalysis ≠
        c1st.lastClaudeAnalysis
    ∧ (analyze_frame c1cfg c1st c1inp).2.lastClaudeAnalysis ≠
        c1st.lastClaudeAnalysis := by
  have herr : c1err = [("error", JVal.str "Request timed out."),
      ("type", JVal.str "APITimeoutError")] := rfl
  have hrun : shouldRunClaude c1cfg c1st c1inp = true := by
    simp only [shouldRunClaude, c1cfg, c1st, c1inp]
    norm_num
  have hraw : (analyze_frame c1cfg c1st c1inp).1.rawAnalysis = some c1err := by
    unfold analyze_frame mkResult claudePass
    rw [show c1inp.claudeOutcome = .ok c1err from rfl]
    simp [hrun, show hasKey c1err "error" = true from rfl]
  have hst : (analyze_frame c1cfg c1st c1inp).2.lastClaudeAnalysis =
      some c1err := by
    unfold analyze_frame mkResult claudePass
    rw [show c1inp.claudeOutcome = .ok c1err from rfl]
    simp [hrun, show hasKey c1err "error" = true from rfl]
  refine ⟨hrun, by rw [hraw, herr], ?_, ?_⟩
  · rw [hraw, herr]
    intro h
    simp only [c1st, Option.some.injEq] at h
    simp at h
  · rw [hst, herr]
    intro h
    simp only [c1st, Option.some.injEq] at h
    simp at h

/-- The C2 scenario: interval 0.5 s, calls at t = 100 and t = 100.3. -/
def c2cfg : ServiceConfig := ⟨true, true, 1 / 2⟩

def c2st : ServiceState := ⟨none, 0, 0⟩

def c2okPayload : Payload := [("safety_score", JVal.num 90)]

def c2i1ok : AnalyzeInput := ⟨1, .hybrid, false, 100, .ok [], .ok c2okPayload⟩

def c2i1err : AnalyzeInput := ⟨1, .hybrid, false, 100, .ok [], .error "timeout"⟩

def c2i2 : AnalyzeInput := ⟨2, .hybrid, false, 1003 / 10, .ok [], .error "timeout"⟩

/-- Claim C2 (amended): two `analyze_frame` calls with
`force_claude = false` whose times differ by less than the configured
interval issue at most one external call *whose await returns*: if the
first call runs the external pass and its awaited call returns a
payload, the throttle timestamp advances to the first call's time and
the second call cannot run the external pass.  The restriction to a
returning await is forced by `claim_C2_counterexample`: a raising
await leaves the throttle timestamp unchanged, so the second call may
issue a second external call within the interval. -/
theorem claim_C2_throttle (cfg : ServiceConfig) (st : ServiceState)
    (i1 i2 : AnalyzeInput) (p : Payload)
    (hforce2 : i2.forceClaude = false)
    (hrun1 : shouldRunClaude cfg st i1 = true)
    (hok : i1.claudeOutcome = .ok p)
    (hlt : i2.currentTime - i1.currentTime < cfg.interval) :
    shouldRunClaude cfg (analyze_frame cfg st i1).2 i2 = false := by
  have hst : (analyze_frame cfg st i1).2.lastClaudeTime = i1.currentTime := by
    unfold analyze_frame mkResult claudePass
    rw [hok]
    by_cases hk : hasKey p "error" <;> simp [hrun1, hk]
  unfold shouldRunClaude
  rw [hst, hforce2]
  have hd : ¬(cfg.interval ≤ i2.currentTime - i1.currentTime) :=
    not_le.mpr hlt
  simp [hd]

theorem c2_run1ok : shouldRunClaude c2cfg c2st c2i1ok = true := by
  simp only [shouldRunClaude, c2cfg, c2st, c2i1ok]
  norm_num

/-- Witness for C2 (amended) at a concrete pair of calls 0.3 s apart. -/
theorem claim_C2_throttle_witness :
    (c2i2.forceClaude = false
      ∧ shouldRunClaude c2cfg c2st c2i1ok = true
      ∧ c2i1ok.claudeOutcome = .ok c2okPayload
      ∧ c2i2.currentTime - c2i1ok.currentTime < c2cfg.interval)
    ∧ shouldRunClaude c2cfg (analyze_frame c2cfg c2st c2i1ok).2 c2i2 =
        false :=
  ⟨⟨rfl, c2_run1ok, rfl, by norm_num [c2i2, c2i1ok, c2cfg]⟩,
   claim_C2_throttle c2cfg c2st c2i1ok c2i2 c2okPayload rfl c2_run1ok rfl
     (by norm_num [c2i2, c2i1ok, c2cfg])⟩

/-- Counterexample to claim C2 as stated: with the external pass
failing (the await raises), the throttle timestamp is not advanced, so
two calls 0.3 s apart — less than the 0.5 s interval — both issue an
external call. -/
theorem claim_C2_counterexample :
    shouldRunClaude c2cfg c2st c2i1err = true
    ∧ shouldRunClaude c2cfg (analyze_frame c2cfg c2st c2i1err).2 c2i2 = true
    ∧ c2i1err.forceClaude = false
    ∧ c2i2.forceClaude = false
    ∧ c2i2.currentTime - c2i1err.currentTime < c2cfg.interval := by
  have h1 : shouldRunClaude c2cfg c2st c2i1err = true := by
    simp only [shouldRunClaude, c2cfg, c2st, c2i1err]
    norm_num
  have hst : (analyze_frame c2cfg c2st c2i1err).2.lastClaudeTime = 0 := by
    unfold analyze_frame mkResult claudePass
    rw [show c2i1err.claudeOutcome = .error "timeout" from rfl]
    simp [h1]
    rfl
  refine ⟨h1, ?_, rfl, rfl, by norm_num [c2i2, c2i1err, c2cfg]⟩
  simp only [shouldRunClaude]
  rw [hst]
  simp only [c2cfg, c2i2]
  norm_num

/-- Claim C3 (amended): whenever the returned `raw_analysis` is falsy
(no external payload was used), the safety score is computed by
`_calculate_safety_score` and lies in [0, 100] for every detection
list.  The restriction is forced by `claim_C3_counterexample`: a score
taken from an external payload is passed through unclamped. -/
theorem claim_C3_local_score_clamped (cfg : ServiceConfig)
    (st : ServiceState) (inp : AnalyzeInput)
    (h : payloadTruthy (analyze_frame cfg st inp).1.rawAnalysis = false) :
    0 ≤ (analyze_frame cfg st inp).1.safetyScore ∧
    (analyze_frame cfg st inp).1.safetyScore ≤ 100 := by
  have hraw : (analyze_frame cfg st inp).1.rawAnalysis =
      (claudePass cfg st inp (localPass cfg inp)).rawAnalysis := rfl
  rw [hraw] at h
  have hs : (analyze_frame cfg st inp).1.safetyScore =
      calculateSafetyScore
        (claudePass cfg st inp (localPass cfg inp)).structures := by
    show (if payloadTruthy (claudePass cfg st inp
        (localPass cfg inp)).rawAnalysis then _ else _) = _
    rw [h]
    simp
  rw [hs]
  exact calculateSafetyScore_bounds _

/-- The C3 witness scenario: no analyzer, empty cache. -/
def c3wcfg : ServiceConfig := ⟨false, true, 1 / 2⟩

def c3wst : ServiceState := ⟨none, 0, 0⟩

def c3winp : AnalyzeInput := ⟨1, .hybrid, false, 0, .ok [], .error "no analyzer"⟩

/-- Witness for C3 (amended): a call with the external service
unavailable and an empty cache, whose raw payload is absent. -/
theorem claim_C3_local_score_clamped_witness :
    payloadTruthy (analyze_frame c3wcfg c3wst c3winp).1.rawAnalysis = false
    ∧ (0 ≤ (analyze_frame c3wcfg c3wst c3winp).1.safetyScore
       ∧ (analyze_frame c3wcfg c3wst c3winp).1.safetyScore ≤ 100) :=
  ⟨rfl, claim_C3_local_score_clamped c3wcfg c3wst c3winp rfl⟩

/-- The C3 counterexample scenario: the external service reports an
out-of-range safety score of 150. -/
def c3cfg : ServiceConfig := ⟨true, true, 1 / 2⟩

def c3st : ServiceState := ⟨none, 0, 0⟩

def c3badPayload : Payload := [("safety_score", JVal.num 150)]

def c3inp : AnalyzeInput := ⟨1, .hybrid, false, 10, .ok [], .ok c3badPayload⟩

/-- Counterexample to claim C3 as stated: an external payload carrying
`safety_score = 150` is extracted without clamping, so the returned
safety score is 150 ∉ [0, 100]. -/
theorem claim_C3_counterexample :
    (analyze_frame c3cfg c3st c3inp).1.safetyScore = 150
    ∧ ¬((analyze_frame c3cfg c3st c3inp).1.safetyScore ≤ 100) := by
  have hrun : shouldRunClaude c3cfg c3st c3inp = true := by
    simp only [shouldRunClaude, c3cfg, c3st, c3inp]
    norm_num
  have hs : (analyze_frame c3cfg c3st c3inp).1.safetyScore = 150 := by
    unfold analyze_frame mkResult claudePass
    rw [show c3inp.claudeOutcome = .ok c3badPayload from rfl]
    simp [hrun, show hasKey c3badPayload "error" = false from rfl]
    rfl
  exact ⟨hs, by rw [hs]; norm_num⟩

/-! ### Claim C4: `validate_trajectory` -/

/-- The warning record built for one (point, critical structure) pair
within the margin (lines 454-459): `int(dist)` is `Nat.sqrt d²`, and
`dist < margin/2` is `4·d² < margin²`. -/
def vtWarn (margin : Nat) (ps : (Int × Int) × StructureDetection) :
    TrajWarning :=
  ⟨ps.2.name, Nat.sqrt (distSq ps.1 ps.2.centroid).toNat, ps.1,
   if 4 * distSq ps.1 ps.2.centroid < (margin : Int) ^ 2 then "critical"
   else "warning"⟩

/-- Combine the running minimum (`none` = infinity) with another. -/
def mergeMin : Option Int → Option Int → Option Int
  | m, none => m
  | none, some b => some b
  | some a, some b => some (min a b)

theorem mergeMin_some (m : Option Int) (d : Int) :
    some (match m with | none => d | some a => min a d) =
      mergeMin m (some d) := by
  cases m <;> rfl

theorem mergeMin_none_left (m : Option Int) : mergeMin none m = m := by
  cases m <;> rfl

theorem mergeMin_assoc (a b c : Option Int) :
    mergeMin (mergeMin a b) c = mergeMin a (mergeMin b c) := by
  cases a <;> cases b <;> cases c <;> simp [mergeMin, min_assoc]

theorem foldl_min_comm (l : List Int) :
    ∀ a b : Int, l.foldl min (min a b) = min a (l.foldl min b) := by
  induction l with
  | nil => intro a b; rfl
  | cons c l ih =>
    intro a b
    show l.foldl min (min (min a b) c) = min a (l.foldl min (min b c))
    rw [min_assoc, ih]

theorem min?_merge (a : Int) (l : List Int) :
    mergeMin (some a) l.min? = (a :: l).min? := by
  cases l with
  | nil => rfl
  | cons b bs =>
    show some (min a (bs.foldl min b)) = some ((b :: bs).foldl min a)
    rw [← foldl_min_comm]
    rfl

theorem distSq_nonneg (p c : Int × Int) : 0 ≤ distSq p c := by
  unfold distSq
  positivity

/-- The nested loop of `validate_trajectory` in closed form:
warnings in traversal order for the pairs inside the margin, safety as
the absence of such pairs, and the minimum squared distance over all
(point, critical structure) pairs. -/
theorem vt_fold (margin : Nat)
    (l : List ((Int × Int) × StructureDetection)) :
    ∀ (ws : List TrajWarning) (safe : Bool) (m : Option Int),
      l.foldl (vtStep margin) (ws, safe, m) =
        (ws ++ l.filterMap (fun ps =>
            if ps.2.isCritical = true ∧
                distSq ps.1 ps.2.centroid < (margin : Int) ^ 2 then
              some (vtWarn margin ps)
            else none),
         safe && !(l.any fun ps => ps.2.isCritical &&
            decide (distSq ps.1 ps.2.centroid < (margin : Int) ^ 2)),
         mergeMin m (((l.filter fun ps => ps.2.isCritical).map fun ps =>
            distSq ps.1 ps.2.centroid).min?)) := by
  induction l with
  | nil =>
    intro ws safe m
    simp [mergeMin]
  | cons ps l ih =>
    intro ws safe m
    rw [List.foldl_cons]
    by_cases hc : ps.2.isCritical = true
    · by_cases hlt : distSq ps.1 ps.2.centroid < (margin : Int) ^ 2
      · have hstep : vtStep margin (ws, safe, m) ps =
            (ws ++ [vtWarn margin ps], false,
             mergeMin m (some (distSq ps.1 ps.2.centroid))) := by
          unfold vtStep
          simp only [hc, if_true, hlt, if_pos, mergeMin_some, vtWarn]
        rw [hstep, ih]
        refine congrArg₂ Prod.mk ?_ (congrArg₂ Prod.mk ?_ ?_)
        · rw [List.filterMap_cons, if_pos ⟨hc, hlt⟩, List.append_assoc]
          rfl
        · rw [List.any_cons, hc, decide_eq_true hlt]
          simp
        · rw [List.filter_cons_of_pos (by simp [hc]), List.map_cons,
            ← min?_merge, ← mergeMin_assoc]
      · have hstep : vtStep margin (ws, safe, m) ps =
            (ws, safe, mergeMin m (some (distSq ps.1 ps.2.centroid))) := by
          unfold vtStep
          simp only [hc, if_true, hlt, if_neg, if_false, mergeMin_some]
        rw [hstep, ih]
        refine congrArg₂ Prod.mk ?_ (congrArg₂ Prod.mk ?_ ?_)
        · rw [List.filterMap_cons, if_neg (by intro hh; exact hlt hh.2)]
        · rw [List.any_cons, hc, decide_eq_false hlt]
          simp
        · rw [List.filter_cons_of_pos (by simp [hc]), List.map_cons,
            ← min?_merge, ← mergeMin_assoc]
    · have hcf : ps.2.isCritical = false := by
        cases h : ps.2.isCritical
        · rfl
        · exact absurd h hc
      have hstep : vtStep margin (ws, safe, m) ps = (ws, safe, m) := by
        unfold vtStep
        rw [hcf]
        simp
      rw [hstep, ih]
      refine congrArg₂ Prod.mk ?_ (congrArg₂ Prod.mk ?_ ?_)
      · rw [List.filterMap_cons, if_neg (by intro hh; exact hc hh.1)]
      · rw [List.any_cons, hcf]
        simp
      · rw [List.filter_cons_of_neg (by simp [hcf])]

theorem sqrt_lt_iff (d2 : Int) (h0 : 0 ≤ d2) (m : Nat) :
    Real.sqrt ((d2 : ℝ)) < (m : ℝ) ↔ d2 < (m : Int) ^ 2 := by
  rcases Nat.eq_zero_or_pos m with hm | hm
  · subst hm
    simp only [Nat.cast_zero, CharP.cast_eq_zero]
    constructor
    · intro h
      exact absurd h (not_lt.mpr (Real.sqrt_nonneg _))
    · intro h
      exfalso
      have h2 : ((0 : Nat) : Int) ^ 2 = 0 := by norm_num
      omega
  · have hm' : (0 : ℝ) < m := by positivity
    rw [Real.sqrt_lt' hm']
    constructor
    · intro h
      exact_mod_cast h
    · intro h
      exact_mod_cast h

theorem sqrt_lt_half_iff (d2 : Int) (h0 : 0 ≤ d2) (m : Nat) :
    Real.sqrt ((d2 : ℝ)) < (m : ℝ) / 2 ↔ 4 * d2 < (m : Int) ^ 2 := by
  rcases Nat.eq_zero_or_pos m with hm | hm
  · subst hm
    simp only [Nat.cast_zero, CharP.cast_eq_zero, zero_div]
    constructor
    · intro h
      exact absurd h (not_lt.mpr (Real.sqrt_nonneg _))
    · intro h
      exfalso
      have h2 : ((0 : Nat) : Int) ^ 2 = 0 := by norm_num
      omega
  · have hm2 : (0 : ℝ) < (m : ℝ) / 2 := by positivity
    rw [Real.sqrt_lt' hm2, div_pow, lt_div_iff₀ (by norm_num : (0:ℝ) < 2 ^ 2)]
    constructor
    · intro h
      have h4 : ((4 * d2 : Int) : ℝ) < (((m : Int) ^ 2 : Int) : ℝ) := by
        push_cast at h ⊢
        linarith
      exact_mod_cast h4
    · intro h
      have h4 : ((4 * d2 : Int) : ℝ) < (((m : Int) ^ 2 : Int) : ℝ) := by
        exact_mod_cast h
      push_cast at h4 ⊢
      linarith

/-- Claim C4: `validate_trajectory` returns `is_safe = false` iff some
trajectory point lies at Euclidean distance strictly below the margin
from the centroid of some structure with `is_critical = true`; the
warnings are exactly the (point, critical structure) pairs within the
margin, in traversal order, with severity "critical" exactly when
`4·d² < margin²` — i.e. when the distance is below half the margin
(fourth conjunct) — and reported distance `⌊√d²⌋`; and the returned
minimum is `⌊√·⌋` of the least squared distance over all (trajectory
point, critical structure) pairs (`None` when there are no such
pairs). -/
theorem claim_C4_validate_trajectory (trajectory : List (Int × Int))
    (structures : List StructureDetection) (margin : Nat) :
    ((validate_trajectory trajectory structures margin).isSafe = false ↔
      ∃ p ∈ trajectory, ∃ s ∈ structures, s.isCritical = true ∧
        Real.sqrt ((distSq p s.centroid : Int) : ℝ) < (margin : ℝ))
    ∧ (validate_trajectory trajectory structures margin).warnings =
        (trajectory.flatMap fun p => structures.map fun s => (p, s)).filterMap
          (fun ps =>
            if ps.2.isCritical = true ∧
                distSq ps.1 ps.2.centroid < (margin : Int) ^ 2 then
              some (vtWarn margin ps)
            else none)
    ∧ (validate_trajectory trajectory structures
          margin).minDistancePxToCritical =
        ((((trajectory.flatMap fun p => structures.map fun s => (p, s)).filter
            fun ps => ps.2.isCritical).map fun ps =>
              distSq ps.1 ps.2.centroid).min?).map
          (fun d2 => Nat.sqrt d2.toNat)
    ∧ ∀ d2 : Nat,
        (((d2 : Int) < (margin : Int) ^ 2 ↔
            Real.sqrt (d2 : ℝ) < (margin : ℝ))
          ∧ (4 * (d2 : Int) < (margin : Int) ^ 2 ↔
            Real.sqrt (d2 : ℝ) < (margin : ℝ) / 2)) := by
  have hfold := vt_fold margin
    (trajectory.flatMap fun p => structures.map fun s => (p, s)) [] true none
  have hsafe : (validate_trajectory trajectory structures margin).isSafe =
      !((trajectory.flatMap fun p => structures.map fun s => (p, s)).any
        fun ps => ps.2.isCritical &&
          decide (distSq ps.1 ps.2.centroid < (margin : Int) ^ 2)) := by
    show ((trajectory.flatMap fun p => structures.map fun s =>
        (p, s)).foldl (vtStep margin) ([], true, none)).2.1 = _
    rw [hfold]
    exact rfl
  have hwarn : (validate_trajectory trajectory structures margin).warnings =
      (trajectory.flatMap fun p => structures.map fun s => (p, s)).filterMap
        (fun ps =>
          if ps.2.isCritical = true ∧
              distSq ps.1 ps.2.centroid < (margin : Int) ^ 2 then
            some (vtWarn margin ps)
          else none) := by
    show ((trajectory.flatMap fun p => structures.map fun s =>
        (p, s)).foldl (vtStep margin) ([], true, none)).1 = _
    rw [hfold]
    rfl
  have hmin : (validate_trajectory trajectory structures
      margin).minDistancePxToCritical =
      (((((trajectory.flatMap fun p => structures.map fun s => (p, s)).filter
          fun ps => ps.2.isCritical).map fun ps =>
            distSq ps.1 ps.2.centroid).min?).map
        (fun d2 => Nat.sqrt d2.toNat)) := by
    show (((trajectory.flatMap fun p => structures.map fun s =>
        (p, s)).foldl (vtStep margin) ([], true, none)).2.2).map _ = _
    rw [hfold, mergeMin_none_left]
  refine ⟨?_, hwarn, hmin, ?_⟩
  · rw [hsafe]
    rw [Bool.not_eq_false']
    rw [List.any_eq_true]
    constructor
    · rintro ⟨ps, hmem, hpred⟩
      rw [List.mem_flatMap] at hmem
      obtain ⟨p, hp, hmem⟩ := hmem
      rw [List.mem_map] at hmem
      obtain ⟨s, hs, rfl⟩ := hmem
      rw [Bool.and_eq_true, decide_eq_true_eq] at hpred
      exact ⟨p, hp, s, hs, hpred.1,
        (sqrt_lt_iff _ (distSq_nonneg _ _) margin).mpr hpred.2⟩
    · rintro ⟨p, hp, s, hs, hcrit, hlt⟩
      refine ⟨(p, s), ?_, ?_⟩
      · rw [List.mem_flatMap]
        exact ⟨p, hp, List.mem_map_of_mem _ hs⟩
      · rw [Bool.and_eq_true, decide_eq_true_eq]
        exact ⟨hcrit, (sqrt_lt_iff _ (distSq_nonneg _ _) margin).mp hlt⟩
  · intro d2
    constructor
    · have := (sqrt_lt_iff (d2 : Int) (by positivity) margin).symm
      rwa [show (((d2 : Int) : ℝ)) = (d2 : ℝ) by push_cast; rfl] at this
    · have := (sqrt_lt_half_iff (d2 : Int) (by positivity) margin).symm
      rwa [show (((d2 : Int) : ℝ)) = (d2 : ℝ) by push_cast; rfl] at this

end NeuroVision
